import Mathlib

/-!
Verification of the `timestamp` command-line tool (`src/timestamp.py`).

The script converts between calendar dates and UNIX timestamps.  This file
gives a shallow embedding of the whole program:

* command-line argument parsing (the `for arg in sys.argv[1:]` loop),
* mode resolution (`now` / `today` / `timestamp` / `datetime`),
* instant construction (`datetime.now`, `datetime.combine(date.today(), ...)`,
  `datetime.fromtimestamp`, `dateutil.parser.parse` + `replace(tzinfo=...)`),
* `format_date` (both the timestamp branch and the calendar branch),
* the top-level printing and exit behaviour.

Modelling conventions:

* A timezone-aware `datetime` object is a `DT`: its wall-clock (civil) fields
  are encoded as microseconds since 1970-01-01 00:00:00 read naively
  (`localMicros`), together with its `utcoffset()` in seconds (`offsetSecs`).
  CPython `datetime` has exactly microsecond resolution, so this is lossless.
* Python `float` values produced by `float(arg)` are modelled exactly as
  decimal numbers `m * 10 ^ e` (structure `PyFloat`); the double-precision
  rounding of the decimal literal is idealised away (it is far below the
  microsecond granularity everything is rounded to anyway).
* Python's float formatting (`"{:.3f}"`, `"{:.0f}"`, `round`) rounds half to
  even; `rheDiv` implements that rounding on exact integers.
* The environment a run depends on (current time, local timezone offset and
  names, the `dateutil` date parser) is an explicit `Env` record.
* `sys.exit()` is always called with no argument in the script, which
  terminates the process with exit status 0; `ProgOut.exitCode` records the
  exit status, and the text printed by `print_usage()` is the abstract output
  item `OutItem.usage`.
* Python `str.lower`, `str.startswith('-')` and `" ".join` are modelled by
  the list-based functions `lowerStr`, `startsDash` and `joinSpace` (the
  flags and tokens involved are ASCII).
* `float(...)` accepts decimal literals with optional sign, fraction and
  exponent; `parseFloat?` models exactly that grammar (the special forms
  `inf`/`nan`, underscores and surrounding whitespace are out of scope).
-/

/-- Numeric value of a list of decimal digit characters, most significant
first (the value `int` would give the corresponding string). -/
def digitsVal (l : List Char) : Nat :=
  l.foldl (fun a c => 10 * a + (c.toNat - 48)) 0

/-- String of the decimal digits of `n` (the characters of `str(n)` for a
natural number, built from core `Nat.toDigits`). -/
def natStr (n : Nat) : String :=
  String.mk (Nat.toDigits 10 n)

/-- Left-pad a string with `'0'` up to width `w` (Python `"{:0w}"` padding). -/
def zeroPad (w : Nat) (s : String) : String :=
  if s.length < w then String.mk (List.replicate (w - s.length) '0') ++ s else s

/-- ASCII lowercasing, modelling Python `str.lower` on ASCII input. -/
def lowerStr (s : String) : String :=
  String.mk (s.toList.map Char.toLower)

/-- Models Python `arg.startswith('-')`. -/
def startsDash (s : String) : Bool :=
  match s.toList with
  | [] => false
  | c :: _ => c = '-'

/-- Models Python `" ".join(args)`. -/
def joinSpace : List String → String
  | [] => ""
  | [a] => a
  | a :: rest => a ++ " " ++ joinSpace rest

/-- Round-half-to-even of the quotient `a / b` (for `b > 0`): the rounding
used by Python `round` and by `format` with a fixed number of digits. -/
def rheDiv (a b : Int) : Int :=
  if 2 * (a % b) < b then a / b
  else if b < 2 * (a % b) then a / b + 1
  else if (a / b) % 2 = 0 then a / b else a / b + 1

/-- Exact value of a Python float as a decimal number `m * 10 ^ e`. -/
structure PyFloat where
  m : Int
  e : Int
deriving DecidableEq, Repr

/-- The float's value in microseconds, rounded half to even: the conversion
`datetime.fromtimestamp` applies to its argument (seconds) to obtain the
microsecond field of the result. -/
def PyFloat.toMicros (v : PyFloat) : Int :=
  if 0 ≤ v.e + 6 then v.m * (10 : Int) ^ (v.e + 6).toNat
  else rheDiv v.m ((10 : Int) ^ (-(v.e + 6)).toNat)

/-- Exponent part of a float literal after `e`/`E`: optional sign then
digits. -/
def parseExp? (cs : List Char) : Option Int :=
  match cs with
  | '+' :: t => if t ≠ [] ∧ t.all Char.isDigit then some ((digitsVal t : Nat) : Int) else none
  | '-' :: t => if t ≠ [] ∧ t.all Char.isDigit then some (-((digitsVal t : Nat) : Int)) else none
  | t => if t ≠ [] ∧ t.all Char.isDigit then some ((digitsVal t : Nat) : Int) else none

/-- Split an optional leading sign; returns whether the value is negated and
the remaining characters. -/
def splitSign (cs : List Char) : Bool × List Char :=
  match cs with
  | [] => (false, [])
  | c :: t => if c = '+' then (false, t) else if c = '-' then (true, t) else (false, c :: t)

/-- Apply a sign flag to a natural mantissa. -/
def signVal (neg : Bool) (n : Nat) : Int :=
  if neg then -(n : Int) else (n : Int)

/-- Models Python `float(s)` on decimal literals: optional sign, integer
digits, optional fraction, optional exponent.  Returns `none` when `float`
would raise `ValueError`. -/
def parseFloat? (s : String) : Option PyFloat :=
  match splitSign s.toList with
  | (neg, cs) =>
    match cs.dropWhile Char.isDigit with
    | [] =>
      if cs.takeWhile Char.isDigit = [] then none
      else some ⟨signVal neg (digitsVal (cs.takeWhile Char.isDigit)), 0⟩
    | '.' :: t =>
      if cs.takeWhile Char.isDigit = [] ∧ t.takeWhile Char.isDigit = [] then none
      else
        match t.dropWhile Char.isDigit with
        | [] =>
          some ⟨signVal neg (digitsVal (cs.takeWhile Char.isDigit) * 10 ^ (t.takeWhile Char.isDigit).length
            + digitsVal (t.takeWhile Char.isDigit)), -((t.takeWhile Char.isDigit).length : Int)⟩
        | 'e' :: t2 =>
          (parseExp? t2).map fun ex =>
            ⟨signVal neg (digitsVal (cs.takeWhile Char.isDigit) * 10 ^ (t.takeWhile Char.isDigit).length
              + digitsVal (t.takeWhile Char.isDigit)), ex - ((t.takeWhile Char.isDigit).length : Int)⟩
        | 'E' :: t2 =>
          (parseExp? t2).map fun ex =>
            ⟨signVal neg (digitsVal (cs.takeWhile Char.isDigit) * 10 ^ (t.takeWhile Char.isDigit).length
              + digitsVal (t.takeWhile Char.isDigit)), ex - ((t.takeWhile Char.isDigit).length : Int)⟩
        | _ => none
    | 'e' :: t2 =>
      if cs.takeWhile Char.isDigit = [] then none
      else (parseExp? t2).map fun ex => ⟨signVal neg (digitsVal (cs.takeWhile Char.isDigit)), ex⟩
    | 'E' :: t2 =>
      if cs.takeWhile Char.isDigit = [] then none
      else (parseExp? t2).map fun ex => ⟨signVal neg (digitsVal (cs.takeWhile Char.isDigit)), ex⟩
    | _ => none

/-- The three display flags of the script (globals `show_milis`, `use_utc`,
`show_iso`, all initially false). -/
structure Options where
  show_milis : Bool
  use_utc : Bool
  show_iso : Bool
deriving DecidableEq, Repr

/-- The environment a run of the script depends on: the current UTC time in
microseconds, the local timezone (a fixed UTC offset in seconds plus the
`time.tzname` pair and the `time.localtime(..).tm_isdst` flag used by
`format_date`, and the `tzname` lookup of `dateutil.tz.tzlocal` used by the
`%Z` directive), and the external `dateutil.parser.parse` collaborator, which
returns the parsed wall-clock fields (as naive microseconds since epoch) or
`none` on failure. -/
structure Env where
  nowMicros : Int
  localOffsetSecs : Int
  tznameStd : String
  tznameDst : String
  isdst : Int → Bool
  tzlocalName : Int → String
  parseDate : String → Option Int

/-- A timezone-aware `datetime`: wall-clock fields read naively as
microseconds since 1970-01-01 00:00:00, plus `utcoffset()` in seconds. -/
structure DT where
  localMicros : Int
  offsetSecs : Int
deriving DecidableEq, Repr

/-- The instant's `timestamp()` in microseconds (exact): wall-clock micros
minus the UTC offset. -/
def DT.utcMicros (dt : DT) : Int :=
  dt.localMicros - dt.offsetSecs * 1000000

/-- The interpretation mode determined from the positional arguments
(the script's `mode` string plus `given_timestamp`). -/
inductive Mode where
  | now : Mode
  | today : Mode
  | timestamp : PyFloat → Mode
  | datetime : Mode
deriving DecidableEq, Repr

/-- One item printed to standard output: a line of text, or the (fixed) text
printed by `print_usage()`. -/
inductive OutItem where
  | usage : OutItem
  | line : String → OutItem
deriving DecidableEq, Repr

/-- Observable result of a run: everything printed, and the process exit
status.  `sys.exit()` is always invoked with no argument in the script, so
every termination path has status 0. -/
structure ProgOut where
  output : List OutItem
  exitCode : Nat
deriving DecidableEq, Repr

/-- Result of the argument-parsing loop (`for arg in sys.argv[1:]`):
immediate exit on a help flag or an unrecognized option, otherwise the
collected options and positional arguments. -/
inductive ParseResult where
  | exitHelp : ParseResult
  | exitUnrecognized : String → ParseResult
  | ok : Options → List String → ParseResult
deriving DecidableEq, Repr

/-- The argument-parsing loop, lines 119-136 of `timestamp.py`.  Any token
starting with `-` is matched (lowercased) against the recognized flag
spellings; `-h`/`--help` prints usage and exits, an unknown flag prints an
error plus usage and exits, other tokens are appended to `main_args`. -/
def parseLoop : List String → Options → List String → ParseResult
  | [], opts, acc => .ok opts acc
  | a :: rest, opts, acc =>
    if startsDash a then
      if lowerStr a ∈ ["-h", "--help"] then .exitHelp
      else if lowerStr a ∈ ["-m", "--m", "--milis", "--mili"] then
        parseLoop rest ⟨true, opts.use_utc, opts.show_iso⟩ acc
      else if lowerStr a ∈ ["-u", "--u", "--utc"] then
        parseLoop rest ⟨opts.show_milis, true, opts.show_iso⟩ acc
      else if lowerStr a ∈ ["-i", "--i", "--iso"] then
        parseLoop rest ⟨opts.show_milis, opts.use_utc, true⟩ acc
      else .exitUnrecognized a
    else parseLoop rest opts (acc ++ [a])

/-- Mode resolution, lines 138-166 of `timestamp.py`: no positional argument
means `now`; a single argument is checked (case-insensitively) against
`"now"` and `"today"`, then tried as a float; anything else is a date
string. -/
def resolveMode (main_args : List String) : Mode :=
  match main_args with
  | [] => .now
  | [a] =>
    if lowerStr a = "now" then .now
    else if lowerStr a = "today" then .today
    else
      match parseFloat? a with
      | some v => .timestamp v
      | none => .datetime
  | _ => .datetime

/-- The timezone attached to the produced instant, lines 168-172: UTC when
`--utc` was given, otherwise the local offset (`dateutil.tz.tzlocal()`). -/
def tzOffset (env : Env) (opts : Options) : Int :=
  if opts.use_utc then 0 else env.localOffsetSecs

/-- Instant construction, lines 174-195 of `timestamp.py`.
`now`: `datetime.now(tz=timezone)`.
`today`: `datetime.combine(date.today(), datetime.min.time())
.replace(tzinfo=timezone)` — note `date.today()` is the LOCAL calendar date
whatever `timezone` is.
`timestamp`: `datetime.fromtimestamp(given_timestamp, tz=timezone)`.
`datetime`: `dateutil.parser.parse(" ".join(main_args))`, then
`replace(tzinfo=timezone)` (wall-clock fields kept, offset overridden);
`none` models the parse failure path.  (Line 147 also assigns a naive
`datetime.now()` to `date` in the no-argument case; that variable is never
used afterwards, so it is not modelled.) -/
def resolveInstant (env : Env) (opts : Options) (main_args : List String) : Option DT :=
  match resolveMode main_args with
  | .now => some ⟨env.nowMicros + tzOffset env opts * 1000000, tzOffset env opts⟩
  | .today =>
    some ⟨(env.nowMicros + env.localOffsetSecs * 1000000) / 86400000000 * 86400000000,
      tzOffset env opts⟩
  | .timestamp v => some ⟨v.toMicros + tzOffset env opts * 1000000, tzOffset env opts⟩
  | .datetime => (env.parseDate (joinSpace main_args)).map fun lm => ⟨lm, tzOffset env opts⟩

/-- Proleptic-Gregorian date (year, month, day) of a count of days since
1970-01-01 (the standard civil-from-days conversion; all intermediate
divisions act on non-negative operands, where `Int.ediv` agrees with the
C-style truncating division of the reference algorithm). -/
def civilFromDays (z0 : Int) : Int × Int × Int :=
  (fun z =>
    (fun era =>
      (fun doe =>
        (fun yoe =>
          (fun doy =>
            (fun mp =>
              ((yoe + era * 400) + (if mp + (if mp < 10 then 3 else -9) ≤ 2 then 1 else 0),
                mp + (if mp < 10 then 3 else -9),
                doy - (153 * mp + 2) / 5 + 1))
              ((5 * doy + 2) / 153))
            (doe - (365 * yoe + yoe / 4 - yoe / 100)))
          ((doe - doe / 1460 + doe / 36524 - doe / 146096) / 365))
        (z - z / 146097 * 146097))
      (z / 146097))
    (z0 + 719468)

/-- Days-since-epoch of an instant's wall-clock fields. -/
def dayOf (lm : Int) : Int :=
  lm / 86400000000

/-- Seconds-of-day of the wall-clock fields (the `%H:%M:%S` input). -/
def sodOf (lm : Int) : Nat :=
  (lm / 1000000 % 86400).toNat

/-- The `microsecond` field of the wall-clock fields (`%f`), in `0..999999`. -/
def usOf (lm : Int) : Int :=
  lm % 1000000

/-- `strftime("%H:%M:%S")`: zero-padded 24-hour time of day. -/
def hmsString (lm : Int) : String :=
  zeroPad 2 (natStr (sodOf lm / 3600)) ++ ":" ++ zeroPad 2 (natStr (sodOf lm % 3600 / 60))
    ++ ":" ++ zeroPad 2 (natStr (sodOf lm % 60))

/-- The appended millisecond text of `format_date`:
`"{:03.0f}".format(round(int(dt.strftime("%f"))/1000))` — round half to even
of microseconds over 1000, formatted zero-padded to a minimum width of 3. -/
def msPart (lm : Int) : String :=
  zeroPad 3 (natStr (rheDiv (usOf lm) 1000).toNat)

/-- Time formatting of `format_date`, lines 74-77: `%H:%M:%S`, plus `.` and
the millisecond part when `milis` is set. -/
def format_time (dt : DT) (milis : Bool) : String :=
  if milis then hmsString dt.localMicros ++ "." ++ msPart dt.localMicros
  else hmsString dt.localMicros

/-- Month abbreviations used by `strftime("%b")` (C locale). -/
def monthAbbr (m : Int) : String :=
  ["Jan", "Feb", "Mar", "Apr", "May", "Jun", "Jul", "Aug", "Sep", "Oct", "Nov", "Dec"].getD
    (m.toNat - 1) ""

/-- Weekday abbreviations used by `strftime("%a")` (C locale);
1970-01-01 was a Thursday. -/
def weekdayAbbr (days : Int) : String :=
  ["Sun", "Mon", "Tue", "Wed", "Thu", "Fri", "Sat"].getD ((days + 4) % 7).toNat ""

/-- `strftime("%Y-%m-%d")`: ISO date of the wall-clock fields. -/
def isoDate (lm : Int) : String :=
  zeroPad 4 (natStr (civilFromDays (dayOf lm)).1.toNat) ++ "-"
    ++ zeroPad 2 (natStr (civilFromDays (dayOf lm)).2.1.toNat) ++ "-"
    ++ zeroPad 2 (natStr (civilFromDays (dayOf lm)).2.2.toNat)

/-- The human date of `format_date`, lines 83-85: `%a`, then the day of month
with leading zero stripped (`%d` + `lstrip("0")`), then `%b %Y`. -/
def humanDate (lm : Int) : String :=
  weekdayAbbr (dayOf lm) ++ " "
    ++ String.mk ((zeroPad 2 (natStr (civilFromDays (dayOf lm)).2.2.toNat)).toList.dropWhile
      (fun c => c = '0'))
    ++ " " ++ monthAbbr (civilFromDays (dayOf lm)).2.1 ++ " "
    ++ zeroPad 4 (natStr (civilFromDays (dayOf lm)).1.toNat)

/-- `strftime("%z")`: signed numeric UTC offset `±HHMM`, with a seconds part
appended only when the offset is not a whole number of minutes. -/
def strftime_z (off : Int) : String :=
  (if off < 0 then "-" else "+") ++ zeroPad 2 (natStr (off.natAbs / 3600))
    ++ zeroPad 2 (natStr (off.natAbs % 3600 / 60))
    ++ (if off.natAbs % 60 = 0 then "" else zeroPad 2 (natStr (off.natAbs % 60)))

/-- The signed whole-hour offset printed in the human timezone annotation:
`int(dt.strftime('%z')[:3])`, i.e. the sign and the two hour digits of `%z`
read back as an integer. -/
def offHoursSigned (off : Int) : Int :=
  if off < 0 then -((off.natAbs / 3600 : Nat) : Int) else ((off.natAbs / 3600 : Nat) : Int)

/-- Python `"{:.nd f}".format(x)` for the exact value `micros / 10^6` with
`nd` fractional digits (`nd ∈ {0, 3}` in the script): round half to even at
the last kept digit; a leading `-` is kept whenever the value is negative
(even when the rounded digits are all zero, as in `"{:.0f}".format(-0.3)`). -/
def fmtFixed (micros : Int) (nd : Nat) : String :=
  (if rheDiv micros ((10 : Int) ^ (6 - nd)) < 0
      ∨ (rheDiv micros ((10 : Int) ^ (6 - nd)) = 0 ∧ micros < 0) then "-" else "")
    ++ (if nd = 0 then natStr (rheDiv micros ((10 : Int) ^ (6 - nd))).natAbs
      else natStr ((rheDiv micros ((10 : Int) ^ (6 - nd))).natAbs / 10 ^ nd) ++ "."
        ++ zeroPad nd (natStr ((rheDiv micros ((10 : Int) ^ (6 - nd))).natAbs % 10 ^ nd)))

/-- `format_date` (lines 63-109 of `timestamp.py`): timestamp rendering when
`show_timestamp` is set (epoch seconds with 3 or 0 fractional digits),
otherwise calendar rendering assembled from time, date and timezone
annotation.  (Lines 88-89 compute `hours` and `mins` from `utcoffset()` but
never use them; they are dead code and not modelled.) -/
def format_date (env : Env) (dt : DT) (show_timestamp iso milis utc : Bool) : String :=
  if show_timestamp then
    if milis then fmtFixed dt.utcMicros 3 else fmtFixed dt.utcMicros 0
  else
    (fun _time _date _tz => if iso then _date ++ "T" ++ _time ++ _tz
        else _date ++ " " ++ _time ++ " " ++ _tz)
      (format_time dt milis)
      (if iso then isoDate dt.localMicros else humanDate dt.localMicros)
      (if iso ∧ utc then "Z"
        else if iso ∧ ¬utc then strftime_z dt.offsetSecs
        else if ¬iso ∧ utc then "UTC"
        else (if env.isdst dt.utcMicros then env.tznameDst else env.tznameStd)
          ++ " (UTC" ++ toString (offHoursSigned dt.offsetSecs) ++ ")")

/-- The fixed-format first line of the `today`/`datetime` output:
`dt.strftime("%Y-%b-%d %H:%M:%S %Z")`.  `%Z` is the `tzname()` of the
attached timezone: the literal `UTC` for `datetime.timezone.utc`, the
OS-provided name for `dateutil.tz.tzlocal()`. -/
def parsedLine (env : Env) (opts : Options) (dt : DT) : String :=
  zeroPad 4 (natStr (civilFromDays (dayOf dt.localMicros)).1.toNat) ++ "-"
    ++ monthAbbr (civilFromDays (dayOf dt.localMicros)).2.1 ++ "-"
    ++ zeroPad 2 (natStr (civilFromDays (dayOf dt.localMicros)).2.2.toNat) ++ " "
    ++ hmsString dt.localMicros ++ " "
    ++ (if opts.use_utc then "UTC" else env.tzlocalName dt.localMicros)

/-- The whole program (lines 113-210 of `timestamp.py`): parse the argument
list, resolve the mode and the instant, print the mode-dependent output.
Every `sys.exit()` in the script carries no argument, so the exit status is
0 on every path (including the help, unrecognized-option and date-parse
failure paths). -/
def run (env : Env) (argv : List String) : ProgOut :=
  match parseLoop argv ⟨false, false, false⟩ [] with
  | .exitHelp => ⟨[.usage], 0⟩
  | .exitUnrecognized a => ⟨[.line ("\nError: Unrecognized option: " ++ a), .usage], 0⟩
  | .ok opts margs =>
    match resolveInstant env opts margs with
    | none => ⟨[.line ("Couldn't parse date string: " ++ joinSpace margs)], 0⟩
    | some dt =>
      match resolveMode margs with
      | .now =>
        ⟨[.line ("Current date: "
            ++ format_date env dt false opts.show_iso opts.show_milis opts.use_utc),
          .line ("Current UNIX: "
            ++ format_date env dt true opts.show_iso opts.show_milis opts.use_utc)], 0⟩
      | .timestamp _ =>
        ⟨[.line (format_date env dt false opts.show_iso opts.show_milis opts.use_utc)], 0⟩
      | _ =>
        ⟨[.line ("Parsed date: " ++ parsedLine env opts dt),
          .line ("UNIX Timestamp: " ++ format_date env dt true false opts.show_milis false)], 0⟩

/-- A concrete benign environment: clock at the epoch, local timezone UTC+0
named `LOC`, no DST, a date parser that always fails. -/
def env0 : Env :=
  ⟨0, 0, "LOC", "LOC", fun _ => false, fun _ => "LOC", fun _ => none⟩

/-- The flag spellings the parsing loop accepts (lowercased forms, all four
groups including the short `--m`, `--mili`, `--u`, `--i` variants). -/
def recognizedFlag (s : String) : Prop :=
  s ∈ ["-h", "--help"] ∨ s ∈ ["-m", "--m", "--milis", "--mili"]
    ∨ s ∈ ["-u", "--u", "--utc"] ∨ s ∈ ["-i", "--i", "--iso"]

instance (s : String) : Decidable (recognizedFlag s) := by
  unfold recognizedFlag
  infer_instance

/-- An environment one second after the epoch in a UTC-1 local timezone: the
local calendar date is still 1969-12-31 while the UTC date is already
1970-01-01. -/
def envC6 : Env :=
  ⟨1000000, -3600, "LOC", "LOC", fun _ => false, fun _ => "LOC", fun _ => none⟩

-- Sanity checks for the float model.
example : parseFloat? "1609459200" = some ⟨1609459200, 0⟩ := by decide
example : parseFloat? "-5" = some ⟨-5, 0⟩ := by decide
example : parseFloat? "+5" = some ⟨5, 0⟩ := by decide
example : parseFloat? "3.25" = some ⟨325, -2⟩ := by decide
example : parseFloat? ".5" = some ⟨5, -1⟩ := by decide
example : parseFloat? "5." = some ⟨5, 0⟩ := by decide
example : parseFloat? "1e3" = some ⟨1, 3⟩ := by decide
example : parseFloat? "1.5e-2" = some ⟨15, -3⟩ := by decide
example : parseFloat? "now" = none := by decide
example : parseFloat? "" = none := by decide
example : parseFloat? "." = none := by decide
example : parseFloat? "5x" = none := by decide

-- Sanity checks against the real script's behaviour.
example : civilFromDays 0 = (1970, 1, 1) := by decide
example : civilFromDays 18628 = (2021, 1, 1) := by decide
example : civilFromDays (-1) = (1969, 12, 31) := by decide
example : civilFromDays 19782 = (2024, 2, 29) := by decide
example : run env0 ["--utc", "--iso", "1609459200"] = ⟨[.line "2021-01-01T00:00:00Z"], 0⟩ := by decide
example : run env0 [] =
    ⟨[.line "Current date: Thu 1 Jan 1970 00:00:00 LOC (UTC0)", .line "Current UNIX: 0"], 0⟩ := by decide
example : run env0 ["--bogus"] =
    ⟨[.line "\nError: Unrecognized option: --bogus", .usage], 0⟩ := by decide
example : run env0 ["-H"] = ⟨[.usage], 0⟩ := by decide
example : fmtFixed 10600000 0 = "11" := by decide
example : fmtFixed 10500000 0 = "10" := by decide
example : fmtFixed (-300000) 0 = "-0" := by decide
example : fmtFixed 1500 3 = "0.002" := by decide
example : fmtFixed 1609459200123456 3 = "1609459200.123" := by decide
example : format_time ⟨999999, 0⟩ true = "00:00:00.1000" := by decide
example : format_time ⟨999499, 0⟩ true = "00:00:00.999" := by decide
example : format_time ⟨500, 0⟩ true = "00:00:00.000" := by decide
example : format_time ⟨1500, 0⟩ true = "00:00:00.002" := by decide

/-! ### Helper lemmas about digit strings, padding and rounding -/

theorem digitsVal_go (l : List Char) :
    ∀ a : Nat, l.foldl (fun a c => 10 * a + (c.toNat - 48)) a
      = a * 10 ^ l.length + digitsVal l := by
  induction l with
  | nil => intro a; simp [digitsVal]
  | cons c t ih =>
    intro a
    have h1 : digitsVal (c :: t) = (c.toNat - 48) * 10 ^ t.length + digitsVal t := by
      show t.foldl _ (10 * 0 + (c.toNat - 48)) = _
      rw [ih]
      ring_nf
    show t.foldl _ (10 * a + (c.toNat - 48)) = a * 10 ^ (c :: t).length + digitsVal (c :: t)
    rw [ih, h1]
    simp [List.length_cons]
    ring

theorem digitsVal_append (l1 l2 : List Char) :
    digitsVal (l1 ++ l2) = digitsVal l1 * 10 ^ l2.length + digitsVal l2 := by
  show (l1 ++ l2).foldl _ 0 = _
  rw [List.foldl_append]
  exact digitsVal_go l2 (digitsVal l1)

theorem digitsVal_replicate_zero : ∀ k : Nat, digitsVal (List.replicate k '0') = 0
  | 0 => rfl
  | k + 1 => digitsVal_replicate_zero k

theorem digitChar_isDigit {m : Nat} (h : m < 10) : (Nat.digitChar m).isDigit = true := by
  interval_cases m <;> decide

theorem digitChar_toNat {m : Nat} (h : m < 10) : (Nat.digitChar m).toNat - 48 = m := by
  interval_cases m <;> decide

theorem toDigitsCore_spec :
    ∀ (fuel n : Nat) (ds : List Char), n < fuel →
      ∃ l, Nat.toDigitsCore 10 fuel n ds = l ++ ds ∧ l ≠ [] ∧
        (∀ c ∈ l, c.isDigit = true) ∧ digitsVal l = n ∧
        ∀ k, 0 < k → n < 10 ^ k → l.length ≤ k := by
  intro fuel
  induction fuel with
  | zero => intro n ds h; omega
  | succ fuel ih =>
    intro n ds h
    by_cases h10 : n / 10 = 0
    · refine ⟨[Nat.digitChar (n % 10)], ?_, by simp, ?_, ?_, ?_⟩
      · simp [Nat.toDigitsCore, h10]
      · intro c hc
        rw [List.mem_singleton] at hc
        subst hc
        exact digitChar_isDigit (Nat.mod_lt _ (by omega))
      · show 10 * 0 + ((Nat.digitChar (n % 10)).toNat - 48) = n
        rw [digitChar_toNat (Nat.mod_lt _ (by omega))]
        omega
      · intro k hk _
        simpa using hk
    · obtain ⟨l, he, hne, hdig, hval, hlen⟩ :=
        ih (n / 10) (Nat.digitChar (n % 10) :: ds) (by omega)
      refine ⟨l ++ [Nat.digitChar (n % 10)], ?_, by simp, ?_, ?_, ?_⟩
      · rw [Nat.toDigitsCore]
        simp only [h10, if_false]
        rw [he, List.append_assoc, List.singleton_append]
      · intro c hc
        rcases List.mem_append.1 hc with hc | hc
        · exact hdig c hc
        · rw [List.mem_singleton] at hc
          subst hc
          exact digitChar_isDigit (Nat.mod_lt _ (by omega))
      · rw [digitsVal_append, hval]
        have hd : digitsVal [Nat.digitChar (n % 10)] = n % 10 := by
          show 10 * 0 + ((Nat.digitChar (n % 10)).toNat - 48) = n % 10
          rw [digitChar_toNat (Nat.mod_lt _ (by omega))]
          omega
        rw [hd]
        simp
        omega
      · intro k hk hlt
        have hn10 : 10 ≤ n := by omega
        have hk2 : 2 ≤ k := by
          rcases Nat.lt_or_ge k 2 with hx | hx
          · interval_cases k <;> simp_all <;> omega
          · exact hx
        have : n / 10 < 10 ^ (k - 1) := by
          rw [Nat.div_lt_iff_lt_mul (by omega : 0 < 10)]
          calc n < 10 ^ k := hlt
          _ = 10 ^ (k - 1) * 10 := by
            rw [← Nat.pow_succ]
            congr 1
            omega
        have := hlen (k - 1) (by omega) this
        rw [List.length_append, List.length_singleton]
        omega

/-- The digit-string facts for `natStr`, packaged. -/
theorem natStr_spec (n : Nat) :
    (natStr n).toList ≠ [] ∧ (∀ c ∈ (natStr n).toList, c.isDigit = true) ∧
      digitsVal (natStr n).toList = n ∧
      ∀ k, 0 < k → n < 10 ^ k → (natStr n).toList.length ≤ k := by
  obtain ⟨l, he, hne, hdig, hval, hlen⟩ :=
    toDigitsCore_spec (n + 1) n [] (Nat.lt_succ_self n)
  have : (natStr n).toList = l := by
    show Nat.toDigits 10 n = l
    rw [Nat.toDigits, he, List.append_nil]
  rw [this]
  exact ⟨hne, hdig, hval, hlen⟩

theorem string_toList_append (s t : String) : (s ++ t).toList = s.toList ++ t.toList := by
  cases s
  cases t
  rfl

theorem string_length_toList (s : String) : s.length = s.toList.length := rfl

theorem string_mk_toList (l : List Char) : (String.mk l).toList = l := rfl

theorem isDigit_ne_dot {c : Char} (h : c.isDigit = true) : c ≠ '.' := by
  intro he
  subst he
  exact absurd h (by decide)

theorem isDigit_ne_plus {c : Char} (h : c.isDigit = true) : c ≠ '+' := by
  intro he
  subst he
  exact absurd h (by decide)

theorem isDigit_ne_minus {c : Char} (h : c.isDigit = true) : c ≠ '-' := by
  intro he
  subst he
  exact absurd h (by decide)

theorem takeWhile_isDigit_self {l : List Char} (h : ∀ c ∈ l, c.isDigit = true) :
    l.takeWhile Char.isDigit = l := by
  induction l with
  | nil => rfl
  | cons c t ih =>
    rw [List.takeWhile_cons, h c (List.mem_cons_self c t)]
    simp only [ite_true]
    rw [ih fun c hc => h c (List.mem_cons_of_mem _ hc)]

theorem dropWhile_isDigit_nil {l : List Char} (h : ∀ c ∈ l, c.isDigit = true) :
    l.dropWhile Char.isDigit = [] := by
  induction l with
  | nil => rfl
  | cons c t ih =>
    rw [List.dropWhile_cons, h c (List.mem_cons_self c t)]
    simp only [ite_true]
    exact ih fun c hc => h c (List.mem_cons_of_mem _ hc)

theorem string_mk_eta (s : String) : String.mk s.toList = s := by
  cases s
  rfl

theorem string_length_append (s t : String) : (s ++ t).length = s.length + t.length := by
  rw [string_length_toList, string_length_toList, string_length_toList, string_toList_append,
    List.length_append]

theorem string_nil_append (s : String) : "" ++ s = s := by
  cases s
  rfl

theorem zeroPad_toList (w : Nat) (s : String) :
    (zeroPad w s).toList = List.replicate (w - s.length) '0' ++ s.toList := by
  unfold zeroPad
  split_ifs with h
  · rw [string_toList_append, string_mk_toList]
  · have hz : w - s.length = 0 := by omega
    rw [hz, List.replicate_zero, List.nil_append]

theorem zeroPad_length (w : Nat) (s : String) : (zeroPad w s).length = max w s.length := by
  rw [string_length_toList, zeroPad_toList, List.length_append, List.length_replicate,
    ← string_length_toList]
  omega

theorem digitsVal_zeroPad (w : Nat) (n : Nat) :
    digitsVal (zeroPad w (natStr n)).toList = n := by
  rw [zeroPad_toList, digitsVal_append, digitsVal_replicate_zero, Nat.zero_mul, Nat.zero_add]
  exact (natStr_spec n).2.2.1

/-- The rounded quotient is within half of the exact quotient:
`|rheDiv a b * b - a| ≤ b / 2` (stated multiplied by 2). -/
theorem rheDiv_bound (a b : Int) (hb : 0 < b) :
    -b ≤ 2 * (rheDiv a b * b - a) ∧ 2 * (rheDiv a b * b - a) ≤ b := by
  have h1 := Int.ediv_add_emod a b
  have h2 := Int.emod_nonneg a (by omega : b ≠ 0)
  have h3 := Int.emod_lt_of_pos a hb
  unfold rheDiv
  split_ifs with hA hB hC
  · constructor <;> nlinarith
  · constructor <;> nlinarith
  · constructor <;> nlinarith
  · constructor <;> nlinarith

theorem rheDiv_nonneg {a b : Int} (ha : 0 ≤ a) (hb : 0 < b) : 0 ≤ rheDiv a b := by
  have h1 := Int.ediv_nonneg ha (le_of_lt hb)
  unfold rheDiv
  split_ifs <;> omega

/-- A string of decimal digits, optionally preceded by `-`, parses back to
the signed value of its digits. -/
theorem parseFloat_digits {l : List Char} (hne : l ≠ []) (hdig : ∀ c ∈ l, c.isDigit = true)
    (neg : Bool) :
    parseFloat? (String.mk (if neg then '-' :: l else l))
      = some ⟨signVal neg (digitsVal l), 0⟩ := by
  obtain ⟨c, t, rfl⟩ : ∃ c t, l = c :: t := by
    cases l with
    | nil => exact absurd rfl hne
    | cons c t => exact ⟨c, t, rfl⟩
  have hc := hdig c (List.mem_cons_self c t)
  have hsplit : splitSign (if neg then '-' :: (c :: t) else c :: t) = (neg, c :: t) := by
    cases neg with
    | false => simp [splitSign, isDigit_ne_plus hc, isDigit_ne_minus hc]
    | true => simp [splitSign]
  rw [parseFloat?, string_mk_toList, hsplit]
  simp [dropWhile_isDigit_nil hdig, takeWhile_isDigit_self hdig, hne]

theorem string_append_assoc (a b c : String) : a ++ b ++ c = a ++ (b ++ c) := by
  cases a with | mk la =>
  cases b with | mk lb =>
  cases c with | mk lc =>
  exact congrArg String.mk (List.append_assoc la lb lc)

/-- An optional minus sign followed by the digits of `a` parses back to the
correspondingly signed value `a`. -/
theorem string_ext {s t : String} (h : s.toList = t.toList) : s = t := by
  cases s
  cases t
  exact congrArg String.mk h

theorem parseFloat_signed (A : Prop) [Decidable A] (a : Nat) :
    parseFloat? ((if A then "-" else "") ++ natStr a)
      = some ⟨if A then -(a : Int) else (a : Int), 0⟩ := by
  obtain ⟨hne, hdig, hval, _⟩ := natStr_spec a
  have hne' : (natStr a).toList ≠ [] := hne
  by_cases h : A
  · rw [if_pos h, if_pos h]
    have e : ("-" ++ natStr a) = String.mk ('-' :: (natStr a).toList) := rfl
    rw [e]
    have hd := parseFloat_digits hne' hdig true
    simp only [ite_true, if_pos] at hd
    rw [hd, hval]
    rfl
  · rw [if_neg h, if_neg h, string_nil_append, ← string_mk_eta (natStr a)]
    have hd := parseFloat_digits hne' hdig false
    simp only [Bool.false_eq_true, ite_false, if_neg] at hd
    rw [hd, hval]
    rfl

/-- Formatting with zero fractional digits and parsing back with `float`
recovers exactly the half-even-rounded whole seconds. -/
theorem fmtFixed_zero_parse (micros : Int) :
    parseFloat? (fmtFixed micros 0) = some ⟨rheDiv micros 1000000, 0⟩ := by
  have hp : ((10 : Int) ^ (6 - 0) : Int) = 1000000 := by norm_num
  unfold fmtFixed
  rw [hp]
  simp only [if_pos rfl, ite_true]
  rw [parseFloat_signed]
  congr 1
  congr 1
  split_ifs with hA <;> omega

/-- The string produced with three fractional digits splits as
`pre ++ "." ++ post` with `post` exactly three decimal digits and no dot
occurring in `pre`. -/
theorem fmtFixed_three_parts (micros : Int) :
    ∃ pre post : String, fmtFixed micros 3 = pre ++ "." ++ post ∧ post.length = 3 ∧
      (∀ c ∈ post.toList, c.isDigit = true) ∧ '.' ∉ pre.toList := by
  have hpN : (10 : Nat) ^ 3 = 1000 := by norm_num
  refine ⟨(if rheDiv micros ((10 : Int) ^ (6 - 3)) < 0
        ∨ (rheDiv micros ((10 : Int) ^ (6 - 3)) = 0 ∧ micros < 0) then "-" else "")
      ++ natStr ((rheDiv micros ((10 : Int) ^ (6 - 3))).natAbs / 10 ^ 3),
    zeroPad 3 (natStr ((rheDiv micros ((10 : Int) ^ (6 - 3))).natAbs % 10 ^ 3)), ?_, ?_, ?_, ?_⟩
  · unfold fmtFixed
    rw [if_neg (by decide : ¬(3 : Nat) = 0)]
    exact string_ext (by simp [string_toList_append, List.append_assoc])
  · rw [zeroPad_length]
    have hlt : (rheDiv micros ((10 : Int) ^ (6 - 3))).natAbs % 10 ^ 3 < 10 ^ 3 :=
      Nat.mod_lt _ (by norm_num)
    have := (natStr_spec ((rheDiv micros ((10 : Int) ^ (6 - 3))).natAbs % 10 ^ 3)).2.2.2
      3 (by norm_num) hlt
    rw [string_length_toList]
    omega
  · intro c hc
    rw [zeroPad_toList] at hc
    rcases List.mem_append.1 hc with hc | hc
    · rw [List.eq_of_mem_replicate hc]
      decide
    · exact (natStr_spec _).2.1 c hc
  · intro hc
    rw [string_toList_append] at hc
    rcases List.mem_append.1 hc with hc | hc
    · split_ifs at hc <;> simp at hc
    · exact absurd rfl (isDigit_ne_dot ((natStr_spec _).2.1 '.' hc))

/-- With zero fractional digits the output contains no decimal point. -/
theorem fmtFixed_zero_no_dot (micros : Int) : '.' ∉ (fmtFixed micros 0).toList := by
  intro hc
  unfold fmtFixed at hc
  simp only [if_pos rfl, ite_true] at hc
  rw [string_toList_append] at hc
  rcases List.mem_append.1 hc with hc | hc
  · split_ifs at hc <;> simp at hc
  · exact absurd rfl (isDigit_ne_dot ((natStr_spec _).2.1 '.' hc))

theorem usOf_nonneg (lm : Int) : 0 ≤ usOf lm :=
  Int.emod_nonneg lm (by norm_num)

theorem usOf_lt (lm : Int) : usOf lm < 1000000 :=
  Int.emod_lt_of_pos lm (by norm_num)

/-- Below 999500 microseconds the millisecond text is exactly three decimal
digits whose value is the half-even rounding of microseconds over 1000. -/
theorem msPart_low {lm : Int} (h : usOf lm ≤ 999499) :
    (msPart lm).length = 3 ∧ (∀ c ∈ (msPart lm).toList, c.isDigit = true) ∧
      ((digitsVal (msPart lm).toList : Nat) : Int) = rheDiv (usOf lm) 1000 := by
  have h0 := usOf_nonneg lm
  have hle : rheDiv (usOf lm) 1000 ≤ 999 := by
    unfold rheDiv
    split_ifs <;> omega
  have hnn : 0 ≤ rheDiv (usOf lm) 1000 := rheDiv_nonneg h0 (by norm_num)
  refine ⟨?_, ?_, ?_⟩
  · unfold msPart
    rw [zeroPad_length]
    have := (natStr_spec (rheDiv (usOf lm) 1000).toNat).2.2.2 3 (by norm_num) (by omega)
    rw [string_length_toList]
    omega
  · intro c hc
    unfold msPart at hc
    rw [zeroPad_toList] at hc
    rcases List.mem_append.1 hc with hc | hc
    · rw [List.eq_of_mem_replicate hc]
      decide
    · exact (natStr_spec _).2.1 c hc
  · unfold msPart
    rw [digitsVal_zeroPad]
    omega

/-- From 999500 microseconds up, rounding reaches 1000 and the millisecond
text is the four characters `1000`. -/
theorem msPart_high {lm : Int} (h : 999500 ≤ usOf lm) : msPart lm = "1000" := by
  have hub := usOf_lt lm
  have hr : rheDiv (usOf lm) 1000 = 1000 := by
    unfold rheDiv
    split_ifs <;> omega
  unfold msPart
  rw [hr]
  decide

theorem sodOf_lt (lm : Int) : sodOf lm < 86400 := by
  unfold sodOf
  omega

/-- At an exact multiple of a day, the formatted time of day is midnight
with zero milliseconds. -/
theorem hms_of_midnight {lm : Int} (h : lm % 86400000000 = 0) :
    hmsString lm = "00:00:00" ∧ msPart lm = "000" := by
  have hs : sodOf lm = 0 := by
    unfold sodOf
    omega
  have hu : usOf lm = 0 := by
    unfold usOf
    omega
  constructor
  · unfold hmsString
    rw [hs]
    decide
  · unfold msPart
    rw [hu]
    decide

/-! ### The claims -/

/-- C10: when `show_timestamp` is true, the formatter's output depends only
on the instant and the milliseconds option: any values of the `iso` and
`utc` options produce the identical output string. -/
theorem C10_timestamp_output_ignores_iso_utc :
    ∀ (env : Env) (dt : DT) (milis iso utc iso2 utc2 : Bool),
      format_date env dt true iso milis utc = format_date env dt true iso2 milis utc2 :=
  fun _ _ _ _ _ _ _ => rfl

/-- C7: `["1609459200"]` is classified as Timestamp mode with value
1609459200.0, and with `--utc --iso` the whole output of the program is the
single unprefixed line `2021-01-01T00:00:00Z` (exit status 0). -/
theorem C7_end_to_end_epoch_2021 :
    resolveMode ["1609459200"] = .timestamp ⟨1609459200, 0⟩
    ∧ (∀ env : Env, run env ["--utc", "--iso", "1609459200"]
        = ⟨[.line "2021-01-01T00:00:00Z"], 0⟩) := by
  refine ⟨by decide, fun env => ?_⟩
  have hrm : resolveMode ["1609459200"] = Mode.timestamp ⟨1609459200, 0⟩ := by decide
  have h1 : parseLoop ["--utc", "--iso", "1609459200"] ⟨false, false, false⟩ []
      = .ok ⟨false, true, true⟩ ["1609459200"] := by decide
  have ht : tzOffset env ⟨false, true, true⟩ = 0 := rfl
  have h2 : resolveInstant env ⟨false, true, true⟩ ["1609459200"]
      = some ⟨1609459200000000, 0⟩ := by
    unfold resolveInstant
    simp only [hrm]
    rw [ht]
    decide
  have h3 : format_date env ⟨1609459200000000, 0⟩ false true false true
      = "2021-01-01T00:00:00Z" := by
    unfold format_date
    simp only [Bool.false_eq_true, if_false, ite_false, if_true, ite_true, and_self,
      Bool.true_eq_false, not_true, false_and, and_false]
    decide
  unfold run
  simp only [h1]
  simp only [h2, hrm]
  rw [h3]

/-- C5: with `show_timestamp` and milliseconds the output has exactly three
fractional digits after the decimal point; without milliseconds it has no
decimal point and denotes the epoch seconds rounded half-to-even to an
integer (within half a second of the exact value — rounded, not
truncated). -/
theorem C5_timestamp_fractional_digits :
    ∀ (env : Env) (dt : DT) (iso utc : Bool),
      (∃ pre post : String, format_date env dt true iso true utc = pre ++ "." ++ post
        ∧ post.length = 3 ∧ (∀ c ∈ post.toList, c.isDigit = true) ∧ '.' ∉ pre.toList)
      ∧ '.' ∉ (format_date env dt true iso false utc).toList
      ∧ parseFloat? (format_date env dt true iso false utc)
          = some ⟨rheDiv dt.utcMicros 1000000, 0⟩
      ∧ -1000000 ≤ 2 * (rheDiv dt.utcMicros 1000000 * 1000000 - dt.utcMicros)
      ∧ 2 * (rheDiv dt.utcMicros 1000000 * 1000000 - dt.utcMicros) ≤ 1000000 :=
  fun _ dt _ _ =>
    ⟨fmtFixed_three_parts dt.utcMicros, fmtFixed_zero_no_dot dt.utcMicros,
      fmtFixed_zero_parse dt.utcMicros,
      (rheDiv_bound dt.utcMicros 1000000 (by norm_num)).1,
      (rheDiv_bound dt.utcMicros 1000000 (by norm_num)).2⟩

/-- C3 (amended): formatting an instant as a timestamp without milliseconds
yields the decimal string of its epoch seconds rounded half-to-even; parsing
that string back and resolving it as Timestamp mode does reproduces the
original instant only to within half a second (not to the same whole-seconds
value). -/
theorem C3_roundtrip_half_second :
    ∀ (env : Env) (dt : DT) (iso utc : Bool),
      parseFloat? (format_date env dt true iso false utc)
        = some ⟨rheDiv dt.utcMicros 1000000, 0⟩
      ∧ PyFloat.toMicros ⟨rheDiv dt.utcMicros 1000000, 0⟩
          = rheDiv dt.utcMicros 1000000 * 1000000
      ∧ (∀ off : Int,
          DT.utcMicros ⟨PyFloat.toMicros ⟨rheDiv dt.utcMicros 1000000, 0⟩ + off * 1000000, off⟩
            = rheDiv dt.utcMicros 1000000 * 1000000)
      ∧ -1000000 ≤ 2 * (rheDiv dt.utcMicros 1000000 * 1000000 - dt.utcMicros)
      ∧ 2 * (rheDiv dt.utcMicros 1000000 * 1000000 - dt.utcMicros) ≤ 1000000 := by
  intro env dt iso utc
  have htm : PyFloat.toMicros ⟨rheDiv dt.utcMicros 1000000, 0⟩
      = rheDiv dt.utcMicros 1000000 * 1000000 := by
    unfold PyFloat.toMicros
    rw [if_pos (by norm_num : (0 : Int) ≤ 0 + 6)]
    norm_num
    exact Or.inl (by decide)
  refine ⟨fmtFixed_zero_parse dt.utcMicros, htm, ?_, ?_, ?_⟩
  · intro off
    rw [htm]
    simp [DT.utcMicros]
  · exact (rheDiv_bound dt.utcMicros 1000000 (by norm_num)).1
  · exact (rheDiv_bound dt.utcMicros 1000000 (by norm_num)).2

/-- C3 counterexample: the instant 10.6 s after the epoch formats (without
milliseconds) as `11`; resolving `11` back through Timestamp mode yields the
instant at 11 s, whose whole-seconds value 11 differs from the original's
whole-seconds value 10. -/
theorem C3_counterexample_whole_seconds :
    format_date env0 ⟨10600000, 0⟩ true false false false = "11"
    ∧ resolveMode ["11"] = .timestamp ⟨11, 0⟩
    ∧ resolveInstant env0 ⟨false, false, false⟩ ["11"] = some ⟨11000000, 0⟩
    ∧ DT.utcMicros ⟨11000000, 0⟩ / 1000000 = 11
    ∧ DT.utcMicros ⟨10600000, 0⟩ / 1000000 = 10
    ∧ (11 : Int) ≠ 10 := by
  decide

/-- C4 (amended): with milliseconds enabled the time of day is the
zero-padded `HH:MM:SS` fields followed by a dot and the decimal string of
`round(microseconds / 1000)` zero-padded to width three: exactly three
digits with that value for microseconds up to 999499, but the four
characters `1000` for microseconds from 999500 on. -/
theorem C4_millisecond_rendering :
    ∀ dt : DT,
      format_time dt true = format_time dt false ++ "." ++ msPart dt.localMicros
      ∧ (∃ h m s : Nat, h < 24 ∧ m < 60 ∧ s < 60 ∧ format_time dt false
          = zeroPad 2 (natStr h) ++ ":" ++ zeroPad 2 (natStr m) ++ ":" ++ zeroPad 2 (natStr s))
      ∧ (usOf dt.localMicros ≤ 999499 →
          (msPart dt.localMicros).length = 3
          ∧ (∀ c ∈ (msPart dt.localMicros).toList, c.isDigit = true)
          ∧ ((digitsVal (msPart dt.localMicros).toList : Nat) : Int)
              = rheDiv (usOf dt.localMicros) 1000)
      ∧ (999500 ≤ usOf dt.localMicros → msPart dt.localMicros = "1000") := by
  intro dt
  have hsod := sodOf_lt dt.localMicros
  exact ⟨rfl,
    ⟨sodOf dt.localMicros / 3600, sodOf dt.localMicros % 3600 / 60, sodOf dt.localMicros % 60,
      by omega, by omega, by omega, rfl⟩,
    fun h => msPart_low h, fun h => msPart_high h⟩

/-- C4 counterexample: at 999999 microseconds the rendered time of day is
`00:00:00.1000` — four digits after the dot, so no three-digit decomposition
exists. -/
theorem C4_counterexample_four_digits :
    format_time ⟨999999, 0⟩ true = "00:00:00.1000"
    ∧ ¬ ∃ post : String, format_time ⟨999999, 0⟩ true = "00:00:00." ++ post
        ∧ post.length = 3 := by
  constructor
  · decide
  · rintro ⟨⟨data⟩, h1, h2⟩
    have he : ("00:00:00.1000" : String) = "00:00:00." ++ String.mk data := by
      rw [← h1]
      decide
    have hd : ("00:00:00.1000" : String).toList
        = ("00:00:00." : String).toList ++ data := by
      rw [he, string_toList_append]
      rfl
    simp at hd
    subst hd
    exact absurd h2 (by decide)

/-- C4 witness: concrete evaluations of the amended statement. -/
theorem C4_witness :
    format_time ⟨1500, 0⟩ true = format_time ⟨1500, 0⟩ false ++ "." ++ msPart 1500
    ∧ (msPart 1500).length = 3
    ∧ ((digitsVal (msPart 1500).toList : Nat) : Int) = rheDiv (usOf 1500) 1000
    ∧ msPart 999999 = "1000" := by
  have h1 := C4_millisecond_rendering ⟨1500, 0⟩
  have h2 := C4_millisecond_rendering ⟨999999, 0⟩
  exact ⟨h1.1, (h1.2.2.1 (by decide)).1, (h1.2.2.1 (by decide)).2.2,
    h2.2.2.2 (by decide)⟩

/-- C1 (code behaviour at the claimed failure points): an unrecognized flag
prints the error message plus usage and the process exits with status 0
(`sys.exit()` with no argument), and an unparseable date string prints only
the error message — no usage text — and also exits with status 0. -/
theorem C1_error_paths_exit_zero :
    (∀ env : Env, run env ["--bogus"]
        = ⟨[.line "\nError: Unrecognized option: --bogus", .usage], 0⟩)
    ∧ ∀ (env : Env) (s : String), startsDash s = false → lowerStr s ≠ "now" →
        lowerStr s ≠ "today" → parseFloat? s = none → env.parseDate s = none →
        run env [s] = ⟨[.line ("Couldn't parse date string: " ++ s)], 0⟩ := by
  constructor
  · intro env
    rfl
  · intro env s h1 h2 h3 h4 h5
    have hp : parseLoop [s] ⟨false, false, false⟩ [] = .ok ⟨false, false, false⟩ [s] := by
      simp [parseLoop, h1]
    have hm : resolveMode [s] = .datetime := by
      simp [resolveMode, h2, h3, h4]
    have hri : resolveInstant env ⟨false, false, false⟩ [s] = none := by
      unfold resolveInstant
      simp only [hm]
      show (env.parseDate (joinSpace [s])).map _ = none
      have hj : env.parseDate (joinSpace [s]) = none := h5
      rw [hj]
      rfl
    unfold run
    simp only [hp, hri]
    rfl

/-- C1 witness: both error paths evaluated at concrete inputs. -/
theorem C1_witness :
    run env0 ["--bogus"] = ⟨[.line "\nError: Unrecognized option: --bogus", .usage], 0⟩
    ∧ run env0 ["gibberish"] = ⟨[.line "Couldn't parse date string: gibberish"], 0⟩ :=
  ⟨C1_error_paths_exit_zero.1 env0,
    C1_error_paths_exit_zero.2 env0 "gibberish" (by decide) (by decide) (by decide)
      (by decide) rfl⟩

/-- C2 (amended): a single positional token is kept by the flag loop exactly
when it does not begin with `-`; it then resolves (case-insensitively) to
Now for `now`, Today for `today`, to Timestamp of its float value when
`float` accepts it, and to DateString of the token itself otherwise.  Tokens
beginning with `-`, including negative decimals such as `-5`, never reach
this classification: they are consumed by the flag loop. -/
theorem C2_single_positional_classification :
    ∀ s : String, startsDash s = false →
      parseLoop [s] ⟨false, false, false⟩ [] = .ok ⟨false, false, false⟩ [s]
      ∧ joinSpace [s] = s
      ∧ (lowerStr s = "now" → resolveMode [s] = .now)
      ∧ (lowerStr s = "today" → resolveMode [s] = .today)
      ∧ (lowerStr s ≠ "now" → lowerStr s ≠ "today" →
          (∀ v, parseFloat? s = some v → resolveMode [s] = .timestamp v)
          ∧ (parseFloat? s = none → resolveMode [s] = .datetime)) := by
  intro s h
  refine ⟨by simp [parseLoop, h], rfl, ?_, ?_, ?_⟩
  · intro hn
    simp [resolveMode, hn]
  · intro ht
    have hn : lowerStr s ≠ "now" := by
      rw [ht]
      decide
    simp [resolveMode, hn, ht]
  · intro hn ht
    constructor
    · intro v hv
      simp [resolveMode, hn, ht, hv]
    · intro hv
      simp [resolveMode, hn, ht, hv]

/-- C2 counterexample: `-5` is accepted by `float`, yet the program treats
it as a flag and reports an unrecognized option instead of classifying it
as a timestamp. -/
theorem C2_counterexample_neg5_is_flag :
    parseFloat? "-5" = some ⟨-5, 0⟩
    ∧ parseLoop ["-5"] ⟨false, false, false⟩ [] = .exitUnrecognized "-5"
    ∧ run env0 ["-5"] = ⟨[.line "\nError: Unrecognized option: -5", .usage], 0⟩ := by
  decide

/-- C2 witness: concrete classifications under the amended statement. -/
theorem C2_witness :
    parseLoop ["5"] ⟨false, false, false⟩ [] = .ok ⟨false, false, false⟩ ["5"]
    ∧ resolveMode ["5"] = .timestamp ⟨5, 0⟩
    ∧ resolveMode ["NoW"] = .now
    ∧ resolveMode ["abc"] = .datetime := by
  have h5 := C2_single_positional_classification "5" (by decide)
  have hn := C2_single_positional_classification "NoW" (by decide)
  have ha := C2_single_positional_classification "abc" (by decide)
  exact ⟨h5.1, (h5.2.2.2.2 (by decide) (by decide)).1 ⟨5, 0⟩ (by decide),
    hn.2.2.1 (by decide), (ha.2.2.2.2 (by decide) (by decide)).2 (by decide)⟩

/-- C6 (amended): Today mode resolves to an instant whose time of day is
exactly `00:00:00.000`, but whose calendar date is the current date in the
system's local timezone — `date.today()` — regardless of the timezone chosen
with `--utc`; only the attached offset follows the chosen timezone. -/
theorem C6_today_local_midnight :
    ∀ (env : Env) (opts : Options),
      ∃ dt : DT, resolveInstant env opts ["today"] = some dt
        ∧ format_time dt true = "00:00:00.000"
        ∧ dayOf dt.localMicros
            = (env.nowMicros + env.localOffsetSecs * 1000000) / 86400000000
        ∧ dt.offsetSecs = tzOffset env opts := by
  intro env opts
  have hrm : resolveMode ["today"] = Mode.today := by decide
  refine ⟨⟨(env.nowMicros + env.localOffsetSecs * 1000000) / 86400000000 * 86400000000,
    tzOffset env opts⟩, ?_, ?_, ?_, rfl⟩
  · unfold resolveInstant
    simp only [hrm]
  · obtain ⟨hh, hm2⟩ := hms_of_midnight
      (show (env.nowMicros + env.localOffsetSecs * 1000000) / 86400000000 * 86400000000
          % 86400000000 = 0 by omega)
    show hmsString _ ++ "." ++ msPart _ = "00:00:00.000"
    rw [hh, hm2]
    rfl
  · show (env.nowMicros + env.localOffsetSecs * 1000000) / 86400000000 * 86400000000
        / 86400000000 = (env.nowMicros + env.localOffsetSecs * 1000000) / 86400000000
    omega

/-- C6 counterexample: one second after the epoch in a UTC-1 local zone,
`today --utc` resolves to local-date 1969-12-31 at midnight UTC, while the
date of "now" in the chosen timezone (UTC) is 1970-01-01. -/
theorem C6_counterexample_utc_date :
    resolveInstant envC6 ⟨false, true, false⟩ ["today"] = some ⟨-86400000000, 0⟩
    ∧ dayOf (-86400000000) = -1
    ∧ envC6.nowMicros / 86400000000 = 0
    ∧ civilFromDays (-1) = (1969, 12, 31)
    ∧ civilFromDays 0 = (1970, 1, 1)
    ∧ ((-1 : Int) ≠ 0) := by
  decide

/-- C6 witness: the amended statement evaluated in a concrete environment. -/
theorem C6_witness :
    ∃ dt : DT, resolveInstant envC6 ⟨false, true, false⟩ ["today"] = some dt
      ∧ format_time dt true = "00:00:00.000"
      ∧ dayOf dt.localMicros
          = (envC6.nowMicros + envC6.localOffsetSecs * 1000000) / 86400000000
      ∧ dt.offsetSecs = tzOffset envC6 ⟨false, true, false⟩ :=
  C6_today_local_midnight envC6 ⟨false, true, false⟩

/-- C9 (amended): a leading token that starts with `-` and whose lowercase
form is not among the accepted spellings (`-h`/`--help`, `-m`/`--m`/
`--milis`/`--mili`, `-u`/`--u`/`--utc`, `-i`/`--i`/`--iso`) makes the
program print the unrecognized-option error plus usage and terminate; the
additional spellings `--m`, `--mili`, `--u` and `--i` are accepted flags,
not errors. -/
theorem C9_unrecognized_flags :
    (∀ (env : Env) (a : String) (rest : List String), startsDash a = true →
      ¬ recognizedFlag (lowerStr a) →
      run env (a :: rest) = ⟨[.line ("\nError: Unrecognized option: " ++ a), .usage], 0⟩)
    ∧ parseLoop ["--m"] ⟨false, false, false⟩ [] = .ok ⟨true, false, false⟩ []
    ∧ parseLoop ["--mili"] ⟨false, false, false⟩ [] = .ok ⟨true, false, false⟩ []
    ∧ parseLoop ["--u"] ⟨false, false, false⟩ [] = .ok ⟨false, true, false⟩ []
    ∧ parseLoop ["--i"] ⟨false, false, false⟩ [] = .ok ⟨false, false, true⟩ [] := by
  refine ⟨?_, by decide, by decide, by decide, by decide⟩
  intro env a rest hd hrec
  have nh : lowerStr a ∉ ["-h", "--help"] := fun hm => hrec (Or.inl hm)
  have nm : lowerStr a ∉ ["-m", "--m", "--milis", "--mili"] := fun hm => hrec (Or.inr (Or.inl hm))
  have nu : lowerStr a ∉ ["-u", "--u", "--utc"] := fun hm => hrec (Or.inr (Or.inr (Or.inl hm)))
  have ni : lowerStr a ∉ ["-i", "--i", "--iso"] := fun hm => hrec (Or.inr (Or.inr (Or.inr hm)))
  have hp : parseLoop (a :: rest) ⟨false, false, false⟩ [] = .exitUnrecognized a := by
    simp [parseLoop, hd, nh, nm, nu, ni]
  unfold run
  simp only [hp]

/-- C9 counterexample: `--m` is not among the four enumerated flag forms of
the claim, yet the program accepts it as the milliseconds flag and produces
normal output instead of an unrecognized-option failure. -/
theorem C9_counterexample_extra_spellings :
    parseLoop ["--m"] ⟨false, false, false⟩ [] = .ok ⟨true, false, false⟩ []
    ∧ run env0 ["--m"]
        = ⟨[.line "Current date: Thu 1 Jan 1970 00:00:00.000 LOC (UTC0)",
            .line "Current UNIX: 0.000"], 0⟩ := by
  decide

/-- C9 witness: the amended statement at a concrete unknown flag. -/
theorem C9_witness :
    run env0 ["--bogus", "now"]
      = ⟨[.line "\nError: Unrecognized option: --bogus", .usage], 0⟩
    ∧ parseLoop ["--u"] ⟨false, false, false⟩ [] = .ok ⟨false, true, false⟩ [] :=
  ⟨C9_unrecognized_flags.1 env0 "--bogus" ["now"] (by decide) (by decide),
    C9_unrecognized_flags.2.2.2.1⟩

/-- Processing the argument list left to right, a help token is reached — and
the loop exits with the help result — provided every earlier dash-token is
one of the accepted flag spellings. -/
theorem parseLoop_help (hstr : String) (post : List String) (hh1 : startsDash hstr = true)
    (hh2 : lowerStr hstr ∈ ["-h", "--help"]) :
    ∀ (pre : List String) (opts : Options) (acc : List String),
      (∀ a ∈ pre, startsDash a = true → recognizedFlag (lowerStr a)) →
      parseLoop (pre ++ hstr :: post) opts acc = .exitHelp := by
  intro pre
  induction pre with
  | nil =>
    intro opts acc _
    rw [List.nil_append]
    simp [parseLoop, hh1, hh2]
  | cons a t ih =>
    intro opts acc hpre
    have ht : ∀ b ∈ t, startsDash b = true → recognizedFlag (lowerStr b) :=
      fun b hb => hpre b (List.mem_cons_of_mem a hb)
    rw [List.cons_append]
    by_cases hd : startsDash a = true
    · rcases hpre a (List.mem_cons_self a t) hd with hg | hg | hg | hg
      · simp [parseLoop, hd, hg]
      · simp only [List.mem_cons, List.mem_singleton, List.not_mem_nil, or_false] at hg
        have hgh : lowerStr a ∉ ["-h", "--help"] := by
          rcases hg with hg | hg | hg | hg <;> rw [hg] <;> decide
        rcases hg with hg | hg | hg | hg <;> simp [parseLoop, hd, hgh, hg] <;> exact ih _ _ ht
      · simp only [List.mem_cons, List.mem_singleton, List.not_mem_nil, or_false] at hg
        have hgh : lowerStr a ∉ ["-h", "--help"] := by
          rcases hg with hg | hg | hg <;> rw [hg] <;> decide
        have hgm : lowerStr a ∉ ["-m", "--m", "--milis", "--mili"] := by
          rcases hg with hg | hg | hg <;> rw [hg] <;> decide
        rcases hg with hg | hg | hg <;> simp [parseLoop, hd, hgh, hgm, hg] <;> exact ih _ _ ht
      · simp only [List.mem_cons, List.mem_singleton, List.not_mem_nil, or_false] at hg
        have hgh : lowerStr a ∉ ["-h", "--help"] := by
          rcases hg with hg | hg | hg <;> rw [hg] <;> decide
        have hgm : lowerStr a ∉ ["-m", "--m", "--milis", "--mili"] := by
          rcases hg with hg | hg | hg <;> rw [hg] <;> decide
        have hgu : lowerStr a ∉ ["-u", "--u", "--utc"] := by
          rcases hg with hg | hg | hg <;> rw [hg] <;> decide
        rcases hg with hg | hg | hg <;> simp [parseLoop, hd, hgh, hgm, hgu, hg] <;>
          exact ih _ _ ht
    · have hdf : startsDash a = false := by
        revert hd
        cases startsDash a <;> simp
      simp [parseLoop, hdf]
      exact ih _ _ ht

/-- C8 (amended): a help flag (case-insensitive `-h`/`--help`) prints the
usage text alone and terminates with success status; it takes precedence
over everything after it in the argument list, but an unrecognized flag
appearing before it wins: the scan is strictly left to right. -/
theorem C8_help_left_to_right :
    ∀ (env : Env) (pre post : List String) (hstr : String),
      (∀ a ∈ pre, startsDash a = true → recognizedFlag (lowerStr a)) →
      startsDash hstr = true → lowerStr hstr ∈ ["-h", "--help"] →
      run env (pre ++ hstr :: post) = ⟨[.usage], 0⟩ := by
  intro env pre post hstr hpre h1 h2
  have hp := parseLoop_help hstr post h1 h2 pre ⟨false, false, false⟩ [] hpre
  unfold run
  simp only [hp]

/-- C8 counterexample: with the unrecognized flag `--bogus` before `--help`,
the program reports the unrecognized option (error line plus usage) instead
of the pure help output — the help check does not take precedence over an
earlier unrecognized flag. -/
theorem C8_counterexample_help_not_first :
    run env0 ["--bogus", "--help"]
      = ⟨[.line "\nError: Unrecognized option: --bogus", .usage], 0⟩
    ∧ ⟨[.line "\nError: Unrecognized option: --bogus", .usage], 0⟩ ≠ (⟨[.usage], 0⟩ : ProgOut) := by
  decide

/-- C8 witness: help reached after recognized flags and a positional token,
in mixed case and regardless of what follows. -/
theorem C8_witness :
    run env0 ["-m", "sometext", "--HELP", "--bogus"] = ⟨[.usage], 0⟩ :=
  C8_help_left_to_right env0 ["-m", "sometext"] ["--bogus"] "--HELP"
    (by decide) (by decide) (by decide)

/-- C3 witness: the round-trip facts evaluated at the instant 10.6 s. -/
theorem C3_witness :
    parseFloat? (format_date env0 ⟨10600000, 0⟩ true false false false)
      = some ⟨rheDiv (DT.utcMicros ⟨10600000, 0⟩) 1000000, 0⟩
    ∧ DT.utcMicros ⟨PyFloat.toMicros ⟨rheDiv (DT.utcMicros ⟨10600000, 0⟩) 1000000, 0⟩
          + 0 * 1000000, 0⟩
        = rheDiv (DT.utcMicros ⟨10600000, 0⟩) 1000000 * 1000000
    ∧ 2 * (rheDiv (DT.utcMicros ⟨10600000, 0⟩) 1000000 * 1000000
          - DT.utcMicros ⟨10600000, 0⟩) ≤ 1000000 :=
  ⟨(C3_roundtrip_half_second env0 ⟨10600000, 0⟩ false false).1,
    (C3_roundtrip_half_second env0 ⟨10600000, 0⟩ false false).2.2.1 0,
    (C3_roundtrip_half_second env0 ⟨10600000, 0⟩ false false).2.2.2.2⟩

/-- C5 witness: the fractional-digit facts evaluated at the instant
0.0015 s. -/
theorem C5_witness :
    (∃ pre post : String, format_date env0 ⟨1500, 0⟩ true false true false
        = pre ++ "." ++ post ∧ post.length = 3 ∧ (∀ c ∈ post.toList, c.isDigit = true)
        ∧ '.' ∉ pre.toList)
    ∧ '.' ∉ (format_date env0 ⟨1500, 0⟩ true false false false).toList
    ∧ parseFloat? (format_date env0 ⟨1500, 0⟩ true false false false)
        = some ⟨rheDiv (DT.utcMicros ⟨1500, 0⟩) 1000000, 0⟩ :=
  ⟨(C5_timestamp_fractional_digits env0 ⟨1500, 0⟩ false false).1,
    (C5_timestamp_fractional_digits env0 ⟨1500, 0⟩ false false).2.1,
    (C5_timestamp_fractional_digits env0 ⟨1500, 0⟩ false false).2.2.1⟩

/-- C10 witness: identical timestamp output at concrete distinct iso/utc
settings. -/
theorem C10_witness :
    format_date env0 ⟨123456789, 3600⟩ true true true false
      = format_date env0 ⟨123456789, 3600⟩ true false true true :=
  C10_timestamp_output_ignores_iso_utc env0 ⟨123456789, 3600⟩ true true false false true
